import Mathlib

/-!
A shallow embedding of the annotation engine of this repository
(`src/components/DrawingCanvas.tsx` and `src/components/BlockRender.tsx`):
the stroke data model, the batch compositing routine of both canvases,
the live incremental draw, the capture state machine, undo, and the
save / cancel session handoff.

Canvas pixel semantics are modelled at the coverage level: a stroked
polyline with round caps and round joins covers exactly the points at
distance at most `lineWidth / 2` from one of its segments; `source-over`
writes the stroke color on covered pixels, `destination-out` makes them
transparent.  The decorative shadow glow (`shadowBlur`) is not part of
the pixel model.  Coordinates are rationals (JS numbers).
-/

namespace FrameNotes

/-- Model of `Point` from `src/types` usage: `{x: number, y: number}`. -/
structure Point where
  x : Rat
  y : Rat
deriving DecidableEq, Repr

/-- Model of `DrawingPath` (a Stroke): ordered points, a color tag (a palette
color or the sentinel `"eraser"`), and a width. -/
structure DrawingPath where
  points : List Point
  color : String
  width : Rat
deriving DecidableEq, Repr

/-- Squared euclidean distance between two points. -/
def distSq (p q : Point) : Rat :=
  (p.x - q.x) ^ 2 + (p.y - q.y) ^ 2

/-- Squared distance from `p` to the segment `[a, b]` (with the
projection parameter clamped to `[0, 1]`; a degenerate segment is the
point `a`). -/
def distSqPointSeg (p a b : Point) : Rat :=
  let dx := b.x - a.x
  let dy := b.y - a.y
  let len2 := dx ^ 2 + dy ^ 2
  if len2 = 0 then distSq p a
  else
    let t := ((p.x - a.x) * dx + (p.y - a.y) * dy) / len2
    let t2 := max 0 (min 1 t)
    distSq p ⟨a.x + t2 * dx, a.y + t2 * dy⟩

/-- A round-capped stroked segment of line width `w` covers `p` iff `p`
is within distance `w / 2` of the segment. -/
def segCovers (w : Rat) (a b p : Point) : Bool :=
  distSqPointSeg p a b ≤ (w / 2) ^ 2

/-- A round-capped, round-joined stroked polyline covers `p` iff one of
its consecutive segments does (a polyline with fewer than two points
covers nothing). -/
def polylineCovers (w : Rat) : List Point → Point → Bool
  | a :: b :: rest, p => segCovers w a b p || polylineCovers w (b :: rest) p
  | _, _ => false

/-- The annotation surface: each point holds either a stroke color or
`none` (fully transparent). -/
def Surface : Type := Point → Option String

/-- Model of `ctx.clearRect(0, 0, canvas.width, canvas.height)`: the fully
transparent surface. -/
def clearSurface : Surface := fun _ => none

/-- The effective `ctx.lineWidth` chosen by the `DrawingCanvas` redraw
effect (`DrawingCanvas.tsx` lines 44-54): eraser strokes use
`path.width * 2`, pen strokes use `path.width`. -/
def lineWidthDC (path : DrawingPath) : Rat :=
  if path.color = "eraser" then path.width * 2 else path.width

/-- One iteration of the `paths.forEach` body of the `DrawingCanvas`
redraw effect (`DrawingCanvas.tsx` lines 35-63): skip the path when it
has fewer than 2 points; otherwise stroke the polyline, with
`destination-out` (pixels become transparent) when the color tag is
`"eraser"` and `source-over` (pixels take the path color) otherwise. -/
def applyStrokeDC (path : DrawingPath) (s : Surface) : Surface :=
  if path.points.length < 2 then s
  else fun p =>
    if polylineCovers (lineWidthDC path) path.points p then
      if path.color = "eraser" then none else some path.color
    else s p

/-- The `DrawingCanvas` redraw effect (`DrawingCanvas.tsx` lines 24-64):
clear the whole surface, then draw the saved paths in array order.  The
previous surface contents `s` are discarded by the clear. -/
def redrawDC (paths : List DrawingPath) (_s : Surface) : Surface :=
  paths.foldl (fun t path => applyStrokeDC path t) clearSurface

/-- The effective `ctx.lineWidth` chosen by the `BlockRender` replay
effect (`BlockRender.tsx` lines 52-64): eraser strokes use
`path.width * 2`, pen strokes use `path.width`. -/
def lineWidthBR (path : DrawingPath) : Rat :=
  if path.color = "eraser" then path.width * 2 else path.width

/-- One iteration of the `block.drawings.forEach` body of the
`BlockRender` replay effect (`BlockRender.tsx` lines 49-74): skip the
path when it has fewer than 2 points; otherwise stroke the polyline with
`destination-out` for the eraser sentinel and `source-over` for pen
colors. -/
def applyStrokeBR (path : DrawingPath) (s : Surface) : Surface :=
  if path.points.length < 2 then s
  else fun p =>
    if polylineCovers (lineWidthBR path) path.points p then
      if path.color = "eraser" then none else some path.color
    else s p

/-- The `BlockRender` replay effect (`BlockRender.tsx` lines 38-76):
clear the whole surface, then draw `block.drawings` in array order. -/
def renderBR (drawings : List DrawingPath) (_s : Surface) : Surface :=
  drawings.foldl (fun t path => applyStrokeBR path t) clearSurface

/-- The tool state of `DrawingCanvas`: `useState<'pen' | 'eraser'>`. -/
inductive Tool
  | pen
  | eraser
deriving DecidableEq, Repr

/-- The effective `ctx.lineWidth` of the live incremental `draw` handler
(`DrawingCanvas.tsx` lines 108-117): `brushSize * 4` for the eraser,
`brushSize` for the pen. -/
def liveLineWidth (tool : Tool) (brushSize : Rat) : Rat :=
  if tool = Tool.eraser then brushSize * 4 else brushSize

/-- The live segment paint of the `draw` handler: stroke the single
segment `[a, b]` with the current tool parameters — transparency for the
eraser (`destination-out`), the selected color for the pen. -/
def applyLiveSegment (tool : Tool) (selectedColor : String) (brushSize : Rat)
    (a b : Point) (s : Surface) : Surface :=
  fun p =>
    if segCovers (liveLineWidth tool brushSize) a b p then
      if tool = Tool.eraser then none else some selectedColor
    else s p

/-- The React state of one `DrawingCanvas` editing session
(`DrawingCanvas.tsx` lines 16-21) together with its canvas surface. -/
structure DCState where
  paths : List DrawingPath
  isDrawing : Bool
  currentPoints : List Point
  selectedColor : String
  tool : Tool
  brushSize : Rat
  surface : Surface

/-- The initial session state (`useState` initializers): the working
copy is seeded from `initialPaths`, no stroke in progress, tool `pen`,
brush size 3; `initColor` stands for `NEON_COLORS[0]`. -/
def initDC (initialPaths : List DrawingPath) (initColor : String) : DCState :=
  { paths := initialPaths
    isDrawing := false
    currentPoints := []
    selectedColor := initColor
    tool := Tool.pen
    brushSize := 3
    surface := redrawDC initialPaths clearSurface }

/-- Handler `startDrawing` (`DrawingCanvas.tsx` lines 86-91): enter the
Capturing state and record the down-position as the single in-progress
point. -/
def startDrawing (pt : Point) (st : DCState) : DCState :=
  { st with isDrawing := true, currentPoints := [pt] }

/-- Handler `draw` (`DrawingCanvas.tsx` lines 93-128): a no-op unless a stroke
is in progress; otherwise append the point to the in-progress sequence
and live-paint the segment from the previous last point to the new point
(the paint is skipped when there is no previous point). -/
def draw (pt : Point) (st : DCState) : DCState :=
  if !st.isDrawing then st
  else
    { st with
      currentPoints := st.currentPoints ++ [pt]
      surface :=
        match st.currentPoints.getLast? with
        | some lastPt =>
            applyLiveSegment st.tool st.selectedColor st.brushSize lastPt pt st.surface
        | none => st.surface }

/-- Handler `stopDrawing` (`DrawingCanvas.tsx` lines 130-142): a no-op unless a
stroke is in progress; otherwise leave the Capturing state, commit the
in-progress points as a new path when there are more than one of them
(color = `"eraser"` for the eraser tool, else the selected color; width
= the brush size), and clear the in-progress sequence.  A commit changes
`paths` and so re-triggers the redraw effect on the surface. -/
def stopDrawing (st : DCState) : DCState :=
  if !st.isDrawing then st
  else if st.currentPoints.length > 1 then
    let newPaths := st.paths ++
      [{ points := st.currentPoints
         color := if st.tool = Tool.eraser then "eraser" else st.selectedColor
         width := st.brushSize }]
    { st with
      isDrawing := false
      paths := newPaths
      currentPoints := []
      surface := redrawDC newPaths st.surface }
  else
    { st with isDrawing := false, currentPoints := [] }

/-- Handler `handleUndo` (`DrawingCanvas.tsx` lines 144-146):
`setPaths(prev => prev.slice(0, -1))` drops the last committed path; the
paths change re-triggers the redraw effect. -/
def handleUndo (st : DCState) : DCState :=
  let newPaths := st.paths.dropLast
  { st with paths := newPaths, surface := redrawDC newPaths st.surface }

/-- The color-swatch `onClick` (`DrawingCanvas.tsx` line 172): select
the color and force the tool back to `pen`. -/
def selectColor (c : String) (st : DCState) : DCState :=
  { st with selectedColor := c, tool := Tool.pen }

/-- The tool-button `onClick` (`DrawingCanvas.tsx` lines 183 and 190). -/
def selectTool (t : Tool) (st : DCState) : DCState :=
  { st with tool := t }

/-- The Done button (`DrawingCanvas.tsx` line 206): the value handed to
`onSave` is exactly the committed `paths` state. -/
def pressDone (st : DCState) : List DrawingPath :=
  st.paths

/-- One user interaction event of an editing session. -/
inductive SessionOp
  | start (pt : Point)
  | move (pt : Point)
  | stop
  | undo
  | color (c : String)
  | tool (t : Tool)

/-- Dispatch of one session event to its `DrawingCanvas` handler. -/
def applyOp (st : DCState) : SessionOp → DCState
  | SessionOp.start pt => startDrawing pt st
  | SessionOp.move pt => draw pt st
  | SessionOp.stop => stopDrawing st
  | SessionOp.undo => handleUndo st
  | SessionOp.color c => selectColor c st
  | SessionOp.tool t => selectTool t st

/-- Run a whole interaction sequence from a session's initial state. -/
def runSession (initialPaths : List DrawingPath) (initColor : String)
    (ops : List SessionOp) : DCState :=
  ops.foldl applyOp (initDC initialPaths initColor)

/-- The host-side state `BlockRender` keeps for one drawable block:
`block.drawings` and the `isDrawingMode` flag. -/
structure BRState where
  drawings : List DrawingPath
  isDrawingMode : Bool

/-- The `onSave` wiring (`BlockRender.tsx` lines 146-149): replace the
block's drawings with the session's paths and leave drawing mode. -/
def onSaveHandler (paths : List DrawingPath) (_br : BRState) : BRState :=
  { drawings := paths, isDrawingMode := false }

/-- The `onCancel` wiring (`BlockRender.tsx` line 150): only
`setIsDrawingMode(false)`; the block's drawings are not touched. -/
def onCancelHandler (br : BRState) : BRState :=
  { br with isDrawingMode := false }

/-- One whole editing session on a block: run the interaction sequence
on a working copy seeded from `br.drawings`, then close with Done
(`save = true`, handing `pressDone` of the final state to `onSave`) or
with Cancel (`save = false`, calling `onCancel` with no payload). -/
def sessionResult (br : BRState) (initColor : String) (ops : List SessionOp)
    (save : Bool) : BRState :=
  if save then onSaveHandler (pressDone (runSession br.drawings initColor ops)) br
  else onCancelHandler br

/-- The replay canvas sizing (`BlockRender.tsx` line 116):
`containerRef.current?.offsetWidth || 800` — `none` models a missing
container, and `0` is falsy in JS, so both fall back to 800. -/
def canvasWidth (offsetWidth : Option Nat) : Nat :=
  match offsetWidth with
  | none => 800
  | some w => if w = 0 then 800 else w

/-- The replay canvas sizing (`BlockRender.tsx` line 117):
`containerRef.current?.offsetHeight || 600`. -/
def canvasHeight (offsetHeight : Option Nat) : Nat :=
  match offsetHeight with
  | none => 600
  | some h => if h = 0 then 600 else h

/-- Iterating `handleUndo` iterates `List.dropLast` on the `paths`
component. -/
lemma handleUndo_iterate_paths (n : Nat) (st : DCState) :
    (handleUndo^[n] st).paths = (fun l : List DrawingPath => l.dropLast)^[n] st.paths := by
  induction n generalizing st with
  | zero => rfl
  | succ k ih =>
      rw [Function.iterate_succ_apply, Function.iterate_succ_apply, ih]
      rfl

/-- Dropping the last element as many times as a list is long empties it. -/
lemma dropLast_iterate_length {α : Type} (ps : List α) :
    (fun l : List α => l.dropLast)^[ps.length] ps = [] := by
  induction ps using List.reverseRecOn with
  | nil => rfl
  | append_singleton ps s ih =>
      rw [List.length_append, List.length_singleton, Function.iterate_succ_apply,
        List.dropLast_concat]
      exact ih

/-- C1: a stroke-end event while capturing commits exactly one stroke —
with the eraser sentinel or the selected palette color, and the active
brush size as width — when at least two points were captured, commits
nothing otherwise, and clears the in-progress point sequence in both
cases. -/
theorem stopDrawing_commits_stroke (st : DCState) (h : st.isDrawing = true) :
    (2 ≤ st.currentPoints.length →
      (stopDrawing st).paths = st.paths ++
        [{ points := st.currentPoints
           color := if st.tool = Tool.eraser then "eraser" else st.selectedColor
           width := st.brushSize }]) ∧
    (st.currentPoints.length < 2 → (stopDrawing st).paths = st.paths) ∧
    (stopDrawing st).currentPoints = [] := by
  refine ⟨fun h2 => ?_, fun h2 => ?_, ?_⟩
  · have h1 : st.currentPoints.length > 1 := by omega
    simp [stopDrawing, h, h1]
  · have h1 : ¬ st.currentPoints.length > 1 := by omega
    simp [stopDrawing, h, h1]
  · by_cases h1 : st.currentPoints.length > 1 <;> simp [stopDrawing, h, h1]

/-- A concrete capturing state with two captured points, used to witness
`stopDrawing_commits_stroke`. -/
def witnessCapturing : DCState :=
  { paths := []
    isDrawing := true
    currentPoints := [⟨0, 0⟩, ⟨1, 1⟩]
    selectedColor := "#22d3ee"
    tool := Tool.pen
    brushSize := 3
    surface := clearSurface }

/-- Witness for C1 at a concrete capturing state. -/
theorem stopDrawing_commits_stroke_witness :
    witnessCapturing.isDrawing = true ∧
    2 ≤ witnessCapturing.currentPoints.length ∧
    (stopDrawing witnessCapturing).paths = witnessCapturing.paths ++
      [{ points := witnessCapturing.currentPoints
         color := if witnessCapturing.tool = Tool.eraser then "eraser"
                  else witnessCapturing.selectedColor
         width := witnessCapturing.brushSize }] ∧
    (stopDrawing witnessCapturing).currentPoints = [] :=
  ⟨rfl, by decide,
    (stopDrawing_commits_stroke witnessCapturing rfl).1 (by decide),
    (stopDrawing_commits_stroke witnessCapturing rfl).2.2⟩

/-- C3: eraser strokes render with line width `2 × width` on the batch
paths of both canvases, the live capture path draws eraser segments with
line width `4 × brushSize`, and pen strokes use the nominal width in
each path. -/
theorem eraser_thickness_multipliers (path : DrawingPath) (b : Rat) :
    (path.color = "eraser" →
      lineWidthDC path = 2 * path.width ∧ lineWidthBR path = 2 * path.width) ∧
    (path.color ≠ "eraser" →
      lineWidthDC path = path.width ∧ lineWidthBR path = path.width) ∧
    liveLineWidth Tool.eraser b = 4 * b ∧
    liveLineWidth Tool.pen b = b := by
  refine ⟨fun h => ⟨?_, ?_⟩, fun h => ⟨?_, ?_⟩, ?_, ?_⟩
  · simp [lineWidthDC, h, mul_comm]
  · simp [lineWidthBR, h, mul_comm]
  · simp [lineWidthDC, h]
  · simp [lineWidthBR, h]
  · simp [liveLineWidth, mul_comm]
  · simp [liveLineWidth]

/-- A concrete eraser stroke used by witnesses. -/
def witnessEraserPath : DrawingPath :=
  { points := [⟨0, 0⟩, ⟨1, 0⟩], color := "eraser", width := 5 }

/-- A concrete pen stroke used by witnesses. -/
def witnessPenPath : DrawingPath :=
  { points := [⟨0, 0⟩, ⟨1, 0⟩], color := "#22d3ee", width := 5 }

/-- Witness for C3 at concrete strokes and brush size 3. -/
theorem eraser_thickness_multipliers_witness :
    witnessEraserPath.color = "eraser" ∧
    lineWidthDC witnessEraserPath = 2 * witnessEraserPath.width ∧
    witnessPenPath.color ≠ "eraser" ∧
    lineWidthBR witnessPenPath = witnessPenPath.width ∧
    liveLineWidth Tool.eraser 3 = 4 * 3 ∧
    liveLineWidth Tool.pen 3 = 3 :=
  ⟨rfl,
    ((eraser_thickness_multipliers witnessEraserPath 3).1 rfl).1,
    by decide,
    ((eraser_thickness_multipliers witnessPenPath 3).2.1 (by decide)).2,
    (eraser_thickness_multipliers witnessEraserPath 3).2.2.1,
    (eraser_thickness_multipliers witnessEraserPath 3).2.2.2⟩

/-- C4: undo removes exactly the most recently committed stroke, undoing
as many times as the working copy is long empties it, and undo on an
empty working copy is a no-op. -/
theorem undo_lifo_pop (st : DCState) :
    (∀ (ps : List DrawingPath) (s : DrawingPath),
      st.paths = ps ++ [s] → (handleUndo st).paths = ps) ∧
    (handleUndo^[st.paths.length] st).paths = [] ∧
    (st.paths = [] → (handleUndo st).paths = []) := by
  refine ⟨fun ps s h => ?_, ?_, fun h => ?_⟩
  · simp [handleUndo, h]
  · rw [handleUndo_iterate_paths, dropLast_iterate_length]
  · simp [handleUndo, h]

/-- A concrete one-stroke session state used to witness `undo_lifo_pop`. -/
def witnessUndoState : DCState :=
  { witnessCapturing with paths := [witnessPenPath], isDrawing := false }

/-- An empty-working-copy session state used to witness `undo_lifo_pop`. -/
def witnessEmptyState : DCState :=
  { witnessCapturing with paths := [], isDrawing := false }

/-- Witness for C4 at concrete working copies of length 1 and 0. -/
theorem undo_lifo_pop_witness :
    witnessUndoState.paths = [] ++ [witnessPenPath] ∧
    (handleUndo witnessUndoState).paths = [] ∧
    (handleUndo^[witnessUndoState.paths.length] witnessUndoState).paths = [] ∧
    witnessEmptyState.paths = [] ∧
    (handleUndo witnessEmptyState).paths = [] :=
  ⟨rfl,
    (undo_lifo_pop witnessUndoState).1 [] witnessPenPath rfl,
    (undo_lifo_pop witnessUndoState).2.1,
    rfl,
    (undo_lifo_pop witnessEmptyState).2.2 rfl⟩

/-- C7: closing a session with Cancel leaves the block's committed
drawings unchanged, whatever interaction sequence the session ran. -/
theorem cancel_preserves_drawings (br : BRState) (c : String)
    (ops : List SessionOp) :
    (sessionResult br c ops false).drawings = br.drawings ∧
    (sessionResult br c ops false).isDrawingMode = false :=
  ⟨rfl, rfl⟩

/-- C8: a missing or zero-sized host container at measurement falls back
to the fixed 800 × 600 default; a measurable container sizes the surface
to its layout dimensions. -/
theorem canvas_size_fallback (w h : Nat) :
    canvasWidth none = 800 ∧ canvasHeight none = 600 ∧
    canvasWidth (some 0) = 800 ∧ canvasHeight (some 0) = 600 ∧
    (w ≠ 0 → canvasWidth (some w) = w) ∧
    (h ≠ 0 → canvasHeight (some h) = h) := by
  refine ⟨rfl, rfl, rfl, rfl, fun hw => ?_, fun hh => ?_⟩
  · simp [canvasWidth, hw]
  · simp [canvasHeight, hh]

/-- Witness for C8 at a concrete measurable container size. -/
theorem canvas_size_fallback_witness :
    (640 ≠ 0) ∧ canvasWidth (some 640) = 640 ∧
    (480 ≠ 0) ∧ canvasHeight (some 480) = 480 :=
  ⟨by decide, (canvas_size_fallback 640 480).2.2.2.2.1 (by decide),
    by decide, (canvas_size_fallback 640 480).2.2.2.2.2 (by decide)⟩

/-- C9: the Done button hands back exactly the committed path list; the
events that extend the in-progress point sequence (pointer down and
pointer move) never change that list, so un-ended in-progress points are
never part of what `onSave` receives. -/
theorem done_returns_committed_only (st : DCState) (pt : Point)
    (br : BRState) (c : String) (ops : List SessionOp) :
    pressDone st = st.paths ∧
    (draw pt st).paths = st.paths ∧
    (startDrawing pt st).paths = st.paths ∧
    (sessionResult br c ops true).drawings = (runSession br.drawings c ops).paths := by
  refine ⟨rfl, ?_, rfl, rfl⟩
  by_cases hd : st.isDrawing <;> simp [draw, hd]

/-- C10: while no stroke is in progress, pointer move and pointer
up/leave events leave the whole session state — committed paths,
in-progress points, and every surface pixel — unchanged. -/
theorem idle_pointer_events_noop (st : DCState) (pt : Point)
    (h : st.isDrawing = false) :
    draw pt st = st ∧ stopDrawing st = st := by
  constructor <;> simp [draw, stopDrawing, h]

/-- An idle session state used to witness `idle_pointer_events_noop`. -/
def witnessIdleState : DCState :=
  { witnessCapturing with isDrawing := false }

/-- Witness for C10 at a concrete idle state. -/
theorem idle_pointer_events_noop_witness :
    witnessIdleState.isDrawing = false ∧
    draw ⟨2, 2⟩ witnessIdleState = witnessIdleState ∧
    stopDrawing witnessIdleState = witnessIdleState :=
  ⟨rfl, (idle_pointer_events_noop witnessIdleState ⟨2, 2⟩ rfl).1,
    (idle_pointer_events_noop witnessIdleState ⟨2, 2⟩ rfl).2⟩

/-- C2: the batch compositing routine ignores the previous surface
contents (the clear), renders strokes in array order with the last array
element painted last, skips strokes with fewer than 2 points leaving the
surface unchanged, and is the same algorithm in the live canvas's full
redraw and in the replay renderer. -/
theorem batch_compositing_shared (paths : List DrawingPath)
    (s s1 s2 t : Surface) (path : DrawingPath) :
    redrawDC paths s1 = redrawDC paths s2 ∧
    redrawDC [] s = clearSurface ∧
    redrawDC (paths ++ [path]) s = applyStrokeDC path (redrawDC paths s) ∧
    (path.points.length < 2 →
      applyStrokeDC path t = t ∧ applyStrokeBR path t = t) ∧
    redrawDC = renderBR := by
  refine ⟨rfl, rfl, ?_, fun h => ⟨?_, ?_⟩, rfl⟩
  · simp [redrawDC, List.foldl_append]
  · simp [applyStrokeDC, h]
  · simp [applyStrokeBR, h]

/-- A degenerate single-point stroke used to witness
`batch_compositing_shared`. -/
def witnessShortPath : DrawingPath :=
  { points := [⟨0, 0⟩], color := "#22d3ee", width := 3 }

/-- Witness for C2: a single-point stroke is skipped by both batch
renderers. -/
theorem batch_compositing_shared_witness :
    witnessShortPath.points.length < 2 ∧
    applyStrokeDC witnessShortPath clearSurface = clearSurface ∧
    applyStrokeBR witnessShortPath clearSurface = clearSurface :=
  ⟨by decide,
    ((batch_compositing_shared [] clearSurface clearSurface clearSurface
        clearSurface witnessShortPath).2.2.2.1 (by decide)).1,
    ((batch_compositing_shared [] clearSurface clearSurface clearSurface
        clearSurface witnessShortPath).2.2.2.1 (by decide)).2⟩

/-- C6: replay is a pure function of the drawings alone — the incoming
surface contents never matter because of the initial clear — and running
it twice in succession on the same surface gives the same pixels as
running it once. -/
theorem replay_pure_idempotent (A : List DrawingPath) (s s1 s2 : Surface) :
    renderBR A s1 = renderBR A s2 ∧
    renderBR A (renderBR A s) = renderBR A s :=
  ⟨rfl, rfl⟩

/-- The pen stroke of the C5 paint-order scenario: a horizontal blue
line of width 4 from (0,0) to (10,0). -/
def orderPenStroke : DrawingPath :=
  { points := [⟨0, 0⟩, ⟨10, 0⟩], color := "#22d3ee", width := 4 }

/-- The eraser stroke of the C5 paint-order scenario: a vertical eraser
line of stored width 2 (effective batch width 4) crossing the pen stroke
at (5,0). -/
def orderEraserStroke : DrawingPath :=
  { points := [⟨5, -5⟩, ⟨5, 5⟩], color := "eraser", width := 2 }

/-- The crossing pixel of the C5 paint-order scenario. -/
def orderCrossPoint : Point := ⟨5, 0⟩

/-- A non-eraser stroke of at least two points paints its color on every
pixel it covers, whatever the surface held before. -/
lemma applyStrokeBR_paints_cover (path : DrawingPath) (s : Surface) (p : Point)
    (hlen : ¬ path.points.length < 2)
    (hcov : polylineCovers (lineWidthBR path) path.points p = true)
    (hcol : path.color ≠ "eraser") :
    applyStrokeBR path s p = some path.color := by
  simp [applyStrokeBR, hlen, hcov, hcol]

/-- An eraser stroke of at least two points makes every pixel it covers
transparent, whatever the surface held before. -/
lemma applyStrokeBR_erases_cover (path : DrawingPath) (s : Surface) (p : Point)
    (hlen : ¬ path.points.length < 2)
    (hcov : polylineCovers (lineWidthBR path) path.points p = true)
    (hcol : path.color = "eraser") :
    applyStrokeBR path s p = none := by
  simp [applyStrokeBR, hlen, hcov, hcol]

/-- The pen stroke of the paint-order scenario covers the crossing
pixel. -/
lemma orderPenStroke_covers_cross :
    polylineCovers (lineWidthBR orderPenStroke) orderPenStroke.points orderCrossPoint
      = true := by
  norm_num [polylineCovers, segCovers, distSqPointSeg, distSq, orderPenStroke,
    orderCrossPoint, lineWidthBR, min_def, max_def,
    (by decide : ("#22d3ee" : String) ≠ "eraser")]

/-- The eraser stroke of the paint-order scenario covers the crossing
pixel. -/
lemma orderEraserStroke_covers_cross :
    polylineCovers (lineWidthBR orderEraserStroke) orderEraserStroke.points
      orderCrossPoint = true := by
  norm_num [polylineCovers, segCovers, distSqPointSeg, distSq, orderEraserStroke,
    orderCrossPoint, lineWidthBR, min_def, max_def]

/-- C5: paint order is significant — pen-then-eraser leaves the crossing
pixel transparent, eraser-then-pen leaves the pen stroke fully visible
(every pixel it covers shows its color), so the composite is not
invariant under reordering of the strokes. -/
theorem paint_order_significant :
    renderBR [orderPenStroke, orderEraserStroke] clearSurface orderCrossPoint = none ∧
    renderBR [orderEraserStroke, orderPenStroke] clearSurface orderCrossPoint
      = some "#22d3ee" ∧
    (∀ p : Point,
      polylineCovers (lineWidthBR orderPenStroke) orderPenStroke.points p = true →
      renderBR [orderEraserStroke, orderPenStroke] clearSurface p = some "#22d3ee") ∧
    renderBR [orderPenStroke, orderEraserStroke] clearSurface
      ≠ renderBR [orderEraserStroke, orderPenStroke] clearSurface := by
  have hq1 : renderBR [orderPenStroke, orderEraserStroke] clearSurface orderCrossPoint
      = none := by
    show applyStrokeBR orderEraserStroke (applyStrokeBR orderPenStroke clearSurface)
      orderCrossPoint = none
    exact applyStrokeBR_erases_cover orderEraserStroke _ orderCrossPoint (by decide)
      orderEraserStroke_covers_cross rfl
  have hq2 : renderBR [orderEraserStroke, orderPenStroke] clearSurface orderCrossPoint
      = some "#22d3ee" := by
    show applyStrokeBR orderPenStroke (applyStrokeBR orderEraserStroke clearSurface)
      orderCrossPoint = some "#22d3ee"
    rw [applyStrokeBR_paints_cover orderPenStroke _ orderCrossPoint (by decide)
      orderPenStroke_covers_cross (by decide)]
    rfl
  refine ⟨hq1, hq2, fun p hp => ?_, fun hcontra => ?_⟩
  · have hrw : renderBR [orderEraserStroke, orderPenStroke] clearSurface p
        = applyStrokeBR orderPenStroke (applyStrokeBR orderEraserStroke clearSurface) p :=
      rfl
    rw [hrw, applyStrokeBR_paints_cover orderPenStroke _ p (by decide) hp (by decide)]
    rfl
  · have hq := congrFun hcontra orderCrossPoint
    rw [hq1, hq2] at hq
    exact Option.noConfusion hq

/-- Witness for C5: the crossing pixel is covered by the pen stroke and
shows the pen color when the pen stroke is painted last. -/
theorem paint_order_significant_witness :
    polylineCovers (lineWidthBR orderPenStroke) orderPenStroke.points orderCrossPoint
      = true ∧
    renderBR [orderEraserStroke, orderPenStroke] clearSurface orderCrossPoint
      = some "#22d3ee" :=
  ⟨orderPenStroke_covers_cross,
    paint_order_significant.2.2.1 orderCrossPoint orderPenStroke_covers_cross⟩

end FrameNotes
